import Mathlib

/-!
Shallow embedding of the task-tracking backend (`telegram-bot`): the date
parsing used by the bot's overdue predicate (`bot/bot.py`) and by the stats
repository (`repositories/stats_repository.py`), the SQLite-backed data model
(`db/database.py`), the repository operations (`repositories/*.py`) and the
REST endpoints (`api/web_api.py`).

Strings are handled as `List Char` (via `String.data`) so that every
definition evaluates inside the kernel.
-/

/-- Splitting a character list at every occurrence of a separator character;
models Python `str.split(sep)` / Lean `String.splitOn` for a one-character
separator, as used by the date parsers below. -/
def splitOnChar (sep : Char) : List Char → List (List Char)
  | [] => [[]]
  | c :: cs =>
    let r := splitOnChar sep cs
    if c = sep then [] :: r
    else
      match r with
      | [] => [[c]]
      | x :: xs => (c :: x) :: xs

/-- Numeric value of a non-empty all-digit character list, `none` otherwise;
models the digit-group matching inside CPython `strptime`. -/
def digitsVal (cs : List Char) : Option Nat :=
  if !cs.isEmpty && cs.all Char.isDigit then
    some (cs.foldl (fun n c => n * 10 + (c.toNat - 48)) 0)
  else
    none

/-- Calendar date (proleptic Gregorian), the value of Python
`datetime.date(year, month, day)`. -/
structure Date where
  year : Nat
  month : Nat
  day : Nat
deriving DecidableEq, Repr

/-- Strict calendar order on dates, Python `date.__lt__` (lexicographic on
year, month, day). -/
def Date.ltb (a b : Date) : Bool :=
  decide (a.year < b.year) ||
    (decide (a.year = b.year) &&
      (decide (a.month < b.month) ||
        (decide (a.month = b.month) && decide (a.day < b.day))))

/-- Gregorian leap-year test, as in Python `calendar`/`datetime`. -/
def isLeapYear (y : Nat) : Bool :=
  y % 4 = 0 && (y % 100 ≠ 0 || y % 400 = 0)

/-- Number of days in a month, as validated by Python `datetime.date`. -/
def daysInMonth (y m : Nat) : Nat :=
  if m = 2 then (if isLeapYear y then 29 else 28)
  else if m = 4 || m = 6 || m = 9 || m = 11 then 30
  else 31

/-- Parsing of `"%d.%m.%Y"` by CPython `strptime` followed by `datetime.date`
validation: exactly three dot-separated digit groups, day and month of one or
two digits, year of exactly four digits, and the triple must be a real
calendar date (month 1–12, day 1–daysInMonth, year ≥ 1). This is
`deadline_to_date` from `bot/bot.py` (which returns `None` on any parse
failure) and also the `"%d.%m.%Y"` branch of the stats repository's
date parser. -/
def deadline_to_date_chars (cs : List Char) : Option Date :=
  match splitOnChar '.' cs with
  | [d, m, y] =>
    match digitsVal d, digitsVal m, digitsVal y with
    | some dn, some mn, some yn =>
      if d.length ≤ 2 && m.length ≤ 2 && y.length = 4 &&
          1 ≤ dn && 1 ≤ mn && mn ≤ 12 && 1 ≤ yn && dn ≤ daysInMonth yn mn then
        some ⟨yn, mn, dn⟩
      else
        none
    | _, _, _ => none
  | _ => none

/-- String front-end of `deadline_to_date` (`bot/bot.py`, lines 291–295). -/
def deadline_to_date (deadline : String) : Option Date :=
  deadline_to_date_chars deadline.data

/-- Task dictionary as seen by the bot's pure helpers: the `status` and
`deadline` fields read by `is_overdue`. -/
structure BotTask where
  status : String
  deadline : String
deriving Repr

/-- Overdue predicate `is_overdue` from `bot/bot.py` (lines 298–304): false
for a completed task, false when the deadline does not parse as
`DD.MM.YYYY`, otherwise compares the parsed date strictly against today.
Today is made an explicit parameter in place of `datetime.date.today()`. -/
def is_overdue (task : BotTask) (today : Date) : Bool :=
  if task.status = "completed" then false
  else
    match deadline_to_date task.deadline with
    | none => false
    | some d => Date.ltb d today

/-- Python whitespace test: the character class matched by `\s` in a
compiled `str` pattern (what `_strptime` uses for a literal space in the
format), i.e. ASCII whitespace, the C0 separators, and the Unicode space
characters. -/
def isPySpace (c : Char) : Bool :=
  decide (c.toNat = 32 ∨ (9 ≤ c.toNat ∧ c.toNat ≤ 13) ∨ (28 ≤ c.toNat ∧ c.toNat ≤ 31) ∨
    c.toNat = 133 ∨ c.toNat = 160 ∨ c.toNat = 5760 ∨ (8192 ≤ c.toNat ∧ c.toNat ≤ 8202) ∨
    c.toNat = 8232 ∨ c.toNat = 8233 ∨ c.toNat = 8239 ∨ c.toNat = 8287 ∨ c.toNat = 12288)

/-- Timestamp with microsecond precision, the value of a Python `datetime`. -/
structure DateTimeM where
  date : Date
  hour : Nat
  minute : Nat
  second : Nat
  micro : Nat
deriving DecidableEq, Repr

/-- Strict order on naive datetimes, Python `datetime.__lt__` (lexicographic
on date, hour, minute, second, microsecond). -/
def DateTimeM.ltb (a b : DateTimeM) : Bool :=
  Date.ltb a.date b.date ||
    (decide (a.date = b.date) &&
      (decide (a.hour < b.hour) ||
        (decide (a.hour = b.hour) &&
          (decide (a.minute < b.minute) ||
            (decide (a.minute = b.minute) &&
              (decide (a.second < b.second) ||
                (decide (a.second = b.second) && decide (a.micro < b.micro))))))))

/-- Parsing of an `H:M:S` time by `strptime`'s `%H:%M:%S` followed by
`datetime` construction: three colon-separated digit groups of one or two
digits each (CPython's `%H`/`%M`/`%S` patterns accept single digits), hours
at most 23, minutes at most 59, seconds at most 59 (the `%S` pattern also
matches 60 and 61, but `datetime.strptime` then fails constructing the
`datetime`, so the overall parse fails and the model folds that into a
parse failure). -/
def parse_hms (cs : List Char) : Option (Nat × Nat × Nat) :=
  match splitOnChar ':' cs with
  | [h, mi, s] =>
    match digitsVal h, digitsVal mi, digitsVal s with
    | some hn, some mn, some sn =>
      if h.length ≤ 2 && mi.length ≤ 2 && s.length ≤ 2 &&
          hn ≤ 23 && mn ≤ 59 && sn ≤ 59 then
        some (hn, mn, sn)
      else
        none
    | _, _, _ => none
  | _ => none

/-- Microsecond component of an ISO time string: after the dot, exactly
three or exactly six digits (the pre-3.11 `fromisoformat` fraction
grammar); three digits are milliseconds. -/
def parse_micro_digits (ds : List Char) : Option Nat :=
  match digitsVal ds with
  | some v =>
    if ds.length = 3 then some (v * 1000)
    else if ds.length = 6 then some v
    else none
  | none => none

/-- Component parser `_parse_hh_mm_ss_ff` of `fromisoformat`:
`HH[:MM[:SS]][.fff[fff]]` with strict two-digit fields, the fractional part
allowed after whichever component the string stops at. Returns hour,
minute, second, microsecond without range validation (ranges are checked by
the `datetime`/`timezone` constructors, i.e. at the call sites). -/
def parse_hh_mm_ss_ff (cs : List Char) : Option (Nat × Nat × Nat × Nat) :=
  match cs with
  | h1 :: h2 :: rest =>
    match digitsVal [h1, h2] with
    | none => none
    | some hn =>
      match rest with
      | [] => some (hn, 0, 0, 0)
      | '.' :: frac =>
        match parse_micro_digits frac with
        | some f => some (hn, 0, 0, f)
        | none => none
      | ':' :: m1 :: m2 :: rest2 =>
        match digitsVal [m1, m2] with
        | none => none
        | some mn =>
          match rest2 with
          | [] => some (hn, mn, 0, 0)
          | '.' :: frac =>
            match parse_micro_digits frac with
            | some f => some (hn, mn, 0, f)
            | none => none
          | ':' :: s1 :: s2 :: rest3 =>
            match digitsVal [s1, s2] with
            | none => none
            | some sn =>
              match rest3 with
              | [] => some (hn, mn, sn, 0)
              | '.' :: frac =>
                match parse_micro_digits frac with
                | some f => some (hn, mn, sn, f)
                | none => none
              | _ => none
          | _ => none
      | _ => none
  | _ => none

/-- Time-of-day part of `fromisoformat`: an `HH[:MM[:SS[.fff[fff]]]]` time,
optionally followed by a UTC offset introduced by `+` or `-` (the offset
itself an `HH[:MM[:SS[.ffffff]]]` group strictly below 24 hours, as the
`timezone` constructor demands). The returned flag records whether an
offset was present: the resulting `datetime` is then timezone-aware. -/
def parse_iso_time (cs : List Char) : Option (Nat × Nat × Nat × Nat × Bool) :=
  let timepart := cs.takeWhile (fun c => !(c = '+' || c = '-'))
  let tzpart := cs.dropWhile (fun c => !(c = '+' || c = '-'))
  match parse_hh_mm_ss_ff timepart with
  | none => none
  | some (hn, minN, sn, micron) =>
    if hn ≤ 23 && minN ≤ 59 && sn ≤ 59 then
      match tzpart with
      | [] => some (hn, minN, sn, micron, false)
      | _sign :: tzrest =>
        match parse_hh_mm_ss_ff tzrest with
        | some (tzh, tzm, tzs, _) =>
          if tzh * 3600 + tzm * 60 + tzs < 86400 then
            some (hn, minN, sn, micron, true)
          else none
        | none => none
    else none

/-- Model of `datetime.fromisoformat` as documented for CPython up to 3.10:
`YYYY-MM-DD[*HH[:MM[:SS[.fff[fff]]]][+HH:MM[:SS[.ffffff]]]]`, where `*` is
any single separator character; the date part is exactly ten characters
with dashes at positions 5 and 8, calendar-validated. CPython 3.11 widens
the accepted grammar further (basic format, week dates); those extensions
are outside this model, and the stats theorems below rely on this parser
only through its rejection of strings made of digits and dots (which holds
for `fromisoformat` of every version, as dots never separate ISO date
components). The flag records timezone-awareness. -/
def parse_iso (cs : List Char) : Option (DateTimeM × Bool) :=
  match cs with
  | y1 :: y2 :: y3 :: y4 :: s1 :: m1 :: m2 :: s2 :: d1 :: d2 :: rest =>
    if s1 = '-' && s2 = '-' then
      match digitsVal [y1, y2, y3, y4], digitsVal [m1, m2], digitsVal [d1, d2] with
      | some yn, some mn, some dn =>
        if 1 ≤ yn && 1 ≤ mn && mn ≤ 12 && 1 ≤ dn && dn ≤ daysInMonth yn mn then
          match rest with
          | [] => some (⟨⟨yn, mn, dn⟩, 0, 0, 0, 0⟩, false)
          | _sep :: tstr =>
            match parse_iso_time tstr with
            | some (hn, minN, sn, micron, aware) =>
              some (⟨⟨yn, mn, dn⟩, hn, minN, sn, micron⟩, aware)
            | none => none
        else none
      | _, _, _ => none
    else none
  | _ => none

/-- Parsing of `"%d.%m.%Y %H:%M:%S"` (the first entry of the stats
repository's `DATE_FORMATS`): `_strptime` compiles the literal space to
`\s+`, so the date part (which contains no whitespace) is separated from
the time part by a non-empty run of whitespace characters; nothing else in
the format matches whitespace, so whitespace anywhere else makes the parse
fail (which `parse_hms`'s digit checks reproduce). -/
def parse_datetime_fmt (cs : List Char) : Option DateTimeM :=
  let datePart := cs.takeWhile (fun c => !(isPySpace c))
  let rest := cs.dropWhile (fun c => !(isPySpace c))
  let timePart := rest.dropWhile (fun c => isPySpace c)
  if rest.isEmpty then none
  else
    match deadline_to_date_chars datePart, parse_hms timePart with
    | some d, some (hn, mn, sn) => some ⟨d, hn, mn, sn, 0⟩
    | _, _ => none

/-- Date parser `StatsRepository._parse_date`
(`repositories/stats_repository.py`, lines 57–67): tries `fromisoformat`
first, then `"%d.%m.%Y %H:%M:%S"`, then `"%d.%m.%Y"` (a date-only parse
yields midnight), returning `None` when all fail. The Boolean next to the
parsed value records timezone-awareness (only an ISO string with an offset
produces an aware datetime). -/
def parse_date (value : String) : Option (DateTimeM × Bool) :=
  match parse_iso value.data with
  | some r => some r
  | none =>
    match parse_datetime_fmt value.data with
    | some dt => some (dt, false)
    | none =>
      match deadline_to_date_chars value.data with
      | some d => some (⟨d, 0, 0, 0, 0⟩, false)
      | none => none

/-- Overdue counter `StatsRepository._count_overdue`
(`repositories/stats_repository.py`, lines 69–77): counts the deadlines
that parse and whose parsed datetime is strictly before now. The comparison
`parsed < now` of a timezone-aware parsed value with the naive
`datetime.now()` raises `TypeError`, which nothing in the repository
catches (`_parse_date` only swallows `ValueError`), so the loop is modelled
as fallible: it errors at the first aware deadline. Now is an explicit
parameter in place of `datetime.now()`. -/
def count_overdue (deadlines : List String) (now : DateTimeM) : Except String Nat :=
  match deadlines with
  | [] => Except.ok 0
  | dl :: rest =>
    match parse_date dl with
    | some (_, true) =>
      Except.error "TypeError: cannot compare offset-naive and offset-aware datetimes"
    | some (p, false) =>
      match count_overdue rest now with
      | Except.ok n => Except.ok ((if DateTimeM.ltb p now then 1 else 0) + n)
      | Except.error e => Except.error e
    | none => count_overdue rest now

/-- Row of the `tasks` table (`db/database.py`): one task assignment. -/
structure TaskRow where
  id : Nat
  group_task_id : Nat
  assigned_to : String
  assigned_by : String
  status : String
  created_at : String
  completed_at : String
deriving DecidableEq, Repr

/-- Row of the `task_groups` table (`db/database.py`). -/
structure GroupRow where
  group_task_id : Nat
  task_text : String
  deadline : String
  group_id : String
  created_at : String
deriving DecidableEq, Repr

/-- Row of the `users` table (`db/database.py`). -/
structure UserRow where
  username : String
  full_name : Option String
deriving DecidableEq, Repr

/-- Database state: the four tables the claims touch, in row order, plus the
`tasks` table's AUTOINCREMENT counter (the next rowid SQLite will hand out,
reported back through `cursor.lastrowid`). `user_groups` rows are
(username, group_id) pairs. -/
structure DB where
  task_groups : List GroupRow
  tasks : List TaskRow
  users : List UserRow
  user_groups : List (String × String)
  next_task_id : Nat
deriving Repr

/-- Largest `group_task_id` present in `task_groups`, 0 for an empty table:
the `SELECT MAX(group_task_id)` of `get_next_group_task_id` with its
`None → 0` default. -/
def max_group_task_id (db : DB) : Nat :=
  db.task_groups.foldl (fun acc g => max acc g.group_task_id) 0

/-- Allocator `TasksRepository.get_next_group_task_id`
(`repositories/tasks_repository.py`, lines 11–22): max existing id plus 1. -/
def get_next_group_task_id (db : DB) : Nat :=
  max_group_task_id db + 1

/-- Executor insertion loop shared by `create_task_group` and
`add_executors_to_group`: one `INSERT INTO tasks` per executor with
status `"active"` and empty `completed_at`, collecting the created rows
(ids taken from `cursor.lastrowid`). -/
def insert_tasks (gid : Nat) (assigner now : String) :
    List String → DB → DB × List TaskRow
  | [], db => (db, [])
  | executor :: rest, db =>
    let t : TaskRow := ⟨db.next_task_id, gid, executor, assigner, "active", now, ""⟩
    let r := insert_tasks gid assigner now rest
      { db with tasks := db.tasks ++ [t], next_task_id := db.next_task_id + 1 }
    (r.1, t :: r.2)

/-- Operation `TasksRepository.create_task_group`
(`repositories/tasks_repository.py`, lines 24–74): allocates
`get_next_group_task_id`, inserts one `task_groups` row, then one `tasks` row
per executor, returning the created task rows. The timestamp `now`
(`datetime.now().strftime`) is an explicit parameter. -/
def create_task_group (db : DB) (task_text deadline group_id : String)
    (assigned_to : List String) (assigned_by now : String) : DB × List TaskRow :=
  let gid := get_next_group_task_id db
  let db1 := { db with
    task_groups := db.task_groups ++ [⟨gid, task_text, deadline, group_id, now⟩] }
  insert_tasks gid assigned_by now assigned_to db1

/-- Operation `TasksRepository.add_executors_to_group`
(`repositories/tasks_repository.py`, lines 76–116): raises `ValueError` when
no `task_groups` row has the given id (the transaction is rolled back, so the
error case leaves the database untouched); otherwise inserts one `tasks` row
per executor. -/
def add_executors_to_group (db : DB) (group_task_id : Nat)
    (assigned_to : List String) (assigned_by now : String) :
    Except String (DB × List TaskRow) :=
  if db.task_groups.any (fun g => g.group_task_id == group_task_id) then
    Except.ok (insert_tasks group_task_id assigned_by now assigned_to db)
  else
    Except.error "Task group does not exist"

/-- Read `TasksRepository.get_task_by_id`
(`repositories/tasks_repository.py`, lines 156–174): `fetchone` on the rows
matching the id, i.e. the first such row in table order. -/
def get_task_by_id (db : DB) (task_id : Nat) : Option TaskRow :=
  (db.tasks.filter fun t => t.id == task_id).head?

/-- Read `TasksRepository.get_tasks_by_group`
(`repositories/tasks_repository.py`, lines 136–154). -/
def get_tasks_by_group (db : DB) (group_task_id : Nat) : List TaskRow :=
  db.tasks.filter fun t => t.group_task_id == group_task_id

/-- Operation `TasksRepository.update_task_status`
(`repositories/tasks_repository.py`, lines 227–253): derives `completed_at`
(`now` when completing, `""` otherwise), updates every row matching the id
(`rowcount = 0` raises `ValueError`), then re-reads the task through
`get_task_by_id`. -/
def update_task_status (db : DB) (task_id : Nat) (new_status now : String) :
    Except String (DB × TaskRow) :=
  let completed_at := if new_status = "completed" then now else ""
  if (db.tasks.filter fun t => t.id == task_id).isEmpty then
    Except.error "Task does not exist"
  else
    let db' := { db with
      tasks := db.tasks.map fun t =>
        if t.id == task_id then { t with status := new_status, completed_at := completed_at }
        else t }
    match get_task_by_id db' task_id with
    | some t => Except.ok (db', t)
    | none => Except.error "Task does not exist"

/-- Operation `TasksRepository.delete_task`
(`repositories/tasks_repository.py`, lines 255–278): looks up the task's
group (missing id raises `ValueError`), deletes every row with the id, then
counts the rows still sharing the group id. -/
def delete_task (db : DB) (task_id : Nat) : Except String (DB × Nat) :=
  match (db.tasks.filter fun t => t.id == task_id).head? with
  | none => Except.error "Task does not exist"
  | some row =>
    let db' := { db with tasks := db.tasks.filter fun t => !(t.id == task_id) }
    let remaining := (db'.tasks.filter fun t => t.group_task_id == row.group_task_id).length
    Except.ok (db', remaining)

/-- Payload `TaskGroupUpdate` (`models.py`, lines 72–75): three optional
fields. -/
structure TaskGroupUpdate where
  task_text : Option String
  deadline : Option String
  group_id : Option String
deriving DecidableEq, Repr

/-- Effect of one `UPDATE task_groups SET field = ?, ...` row write: each
supplied field overwrites, each omitted field keeps its value; the key and
`created_at` are never in the SET list. -/
def apply_group_update (u : TaskGroupUpdate) (g : GroupRow) : GroupRow :=
  { g with
    task_text := u.task_text.getD g.task_text
    deadline := u.deadline.getD g.deadline
    group_id := u.group_id.getD g.group_id }

/-- Whether `update_group` builds a non-empty SET list. -/
def has_update_fields (u : TaskGroupUpdate) : Bool :=
  u.task_text.isSome || u.deadline.isSome || u.group_id.isSome

/-- Operation `TasksRepository.update_group`
(`repositories/tasks_repository.py`, lines 176–225): when at least one field
is supplied, updates every `task_groups` row matching the id (`rowcount = 0`
raises `ValueError`); then re-reads the group with a `fetchone` (a missing
row raises `ValueError`) and returns it. -/
def update_group (db : DB) (group_task_id : Nat) (u : TaskGroupUpdate) :
    Except String (DB × GroupRow) :=
  if has_update_fields u then
    if (db.task_groups.filter fun g => g.group_task_id == group_task_id).isEmpty then
      Except.error "Task group does not exist"
    else
      let db' := { db with
        task_groups := db.task_groups.map fun g =>
          if g.group_task_id == group_task_id then apply_group_update u g else g }
      match (db'.task_groups.filter fun g => g.group_task_id == group_task_id).head? with
      | some g => Except.ok (db', g)
      | none => Except.error "Task group does not exist"
  else
    match (db.task_groups.filter fun g => g.group_task_id == group_task_id).head? with
    | some g => Except.ok (db, g)
    | none => Except.error "Task group does not exist"

/-- Modelled from the spec: `UsersRepository.delete_user` is not present
under `src/` (the `users_repository.py` snapshot ends after `update_user`;
only its caller, the `DELETE /api/users/{username}` endpoint in
`api/web_api.py`, is). Per the spec's data model (User lifecycle: "deleted
explicitly, cascading group membership" — the `user_groups` table carries
`ON DELETE CASCADE` on its username foreign key in `db/database.py`) and its
failure semantics (a missing id raises the not-found condition): a missing
username raises `ValueError`; otherwise the user row and every
`user_groups` membership row of that username are deleted. -/
def delete_user (db : DB) (username : String) : Except String DB :=
  if db.users.any (fun u => u.username == username) then
    Except.ok { db with
      users := db.users.filter (fun u => !(u.username == username))
      user_groups := db.user_groups.filter (fun ug => !(ug.1 == username)) }
  else
    Except.error "User does not exist"

/-- Outcome of an HTTP endpoint call: a successful JSON body, or an
`HTTPException`-style error response carrying its status code. Endpoints
below return the (possibly unchanged) database next to the outcome. -/
inductive HttpOutcome (α : Type) where
  | ok : α → HttpOutcome α
  | err : Nat → HttpOutcome α
deriving DecidableEq, Repr

/-- Payload `TaskCreate` (`models.py`, lines 58–63). -/
structure TaskCreate where
  task_text : String
  deadline : String
  group_id : String
  assigned_to : List String
  assigned_by : String
deriving Repr

/-- Payload `TaskAddExecutors` (`models.py`, lines 66–69). -/
structure TaskAddExecutors where
  group_task_id : Nat
  assigned_to : List String
  assigned_by : String
deriving Repr

/-- Response body of `POST /api/tasks`: `success`, `group_task_id` (null when
no task row was created) and the created task rows. -/
structure CreateResponse where
  success : Bool
  group_task_id : Option Nat
  tasks : List TaskRow
deriving DecidableEq, Repr

/-- Endpoint `POST /api/tasks` (`api/web_api.py`, lines 66–91,
`create_or_add_tasks`): a `TaskCreate` payload goes to `create_task_group`
(the response's `group_task_id` is `tasks[0].group_task_id if tasks else
None`); a `TaskAddExecutors` payload goes to `add_executors_to_group`, whose
`ValueError` is mapped to HTTP 404. -/
def create_or_add_tasks (db : DB) (payload : TaskCreate ⊕ TaskAddExecutors)
    (now : String) : DB × HttpOutcome CreateResponse :=
  match payload with
  | Sum.inl p =>
    let r := create_task_group db p.task_text p.deadline p.group_id p.assigned_to p.assigned_by now
    (r.1, HttpOutcome.ok ⟨true, (r.2.head?.map fun t => t.group_task_id), r.2⟩)
  | Sum.inr p =>
    match add_executors_to_group db p.group_task_id p.assigned_to p.assigned_by now with
    | Except.ok (db', ts) => (db', HttpOutcome.ok ⟨true, some p.group_task_id, ts⟩)
    | Except.error _ => (db, HttpOutcome.err 404)

/-- Raw JSON body of a `PUT /api/tasks/{id}` request, before FastAPI binds it
to `Union[TaskStatusUpdate, GroupOperationRequest]`: the fields either model
reads, each optional at the JSON level. -/
structure RawPutPayload where
  status : Option String
  group_operation : Option Bool
  task_text : Option String
  deadline : Option String
  group_id : Option String
deriving Repr

/-- Validator of `TaskStatusUpdate.status` (`models.py`, lines 78–86): only
`"active"` and `"completed"` are accepted. -/
def validate_status (s : String) : Bool :=
  s = "active" || s = "completed"

/-- Parsed `PUT /api/tasks/{id}` payload: one of the two union members. -/
inductive PutPayload where
  | statusUpdate : String → PutPayload
  | groupOp : Bool → TaskGroupUpdate → PutPayload
deriving Repr

/-- FastAPI body binding for `Union[TaskStatusUpdate, GroupOperationRequest]`
(`api/web_api.py`, line 96): a body with a valid `status` binds to
`TaskStatusUpdate`; a body with a `group_operation` field binds to
`GroupOperationRequest` (its other fields optional); a body that validates as
neither member is rejected by FastAPI's request validation before the
handler runs. -/
def parse_put_payload (raw : RawPutPayload) : Except String PutPayload :=
  match raw.status with
  | some s =>
    if validate_status s then Except.ok (PutPayload.statusUpdate s)
    else
      match raw.group_operation with
      | some b => Except.ok (PutPayload.groupOp b ⟨raw.task_text, raw.deadline, raw.group_id⟩)
      | none => Except.error "request validation failed"
  | none =>
    match raw.group_operation with
    | some b => Except.ok (PutPayload.groupOp b ⟨raw.task_text, raw.deadline, raw.group_id⟩)
    | none => Except.error "request validation failed"

/-- Response body of `PUT /api/tasks/{id}`: either the updated task or the
`group_task_id` of the updated group. -/
inductive PutResponse where
  | taskUpdated : TaskRow → PutResponse
  | groupUpdated : Nat → PutResponse
deriving DecidableEq, Repr

/-- Endpoint `PUT /api/tasks/{id}` (`api/web_api.py`, lines 94–112,
`update_task`). A body validating as neither union member is rejected by
FastAPI with HTTP 422 before the handler runs. In the handler, a
`GroupOperationRequest` with `group_operation` true updates the group of the
addressed task (`ValueError` → HTTP 404); one with `group_operation` false
falls through to `payload.status`, an attribute `GroupOperationRequest` does
not have, so the `AttributeError` escapes as HTTP 500; a `TaskStatusUpdate`
goes to `update_task_status` (`ValueError` → HTTP 404). -/
def api_update_task (db : DB) (task_id : Nat) (raw : RawPutPayload)
    (now : String) : DB × HttpOutcome PutResponse :=
  match parse_put_payload raw with
  | Except.error _ => (db, HttpOutcome.err 422)
  | Except.ok (PutPayload.groupOp true u) =>
    match get_task_by_id db task_id with
    | none => (db, HttpOutcome.err 404)
    | some t =>
      match update_group db t.group_task_id u with
      | Except.ok (db', _) => (db', HttpOutcome.ok (PutResponse.groupUpdated t.group_task_id))
      | Except.error _ => (db, HttpOutcome.err 404)
  | Except.ok (PutPayload.groupOp false _) => (db, HttpOutcome.err 500)
  | Except.ok (PutPayload.statusUpdate s) =>
    match update_task_status db task_id s now with
    | Except.ok (db', t) => (db', HttpOutcome.ok (PutResponse.taskUpdated t))
    | Except.error _ => (db, HttpOutcome.err 404)

/-- Endpoint `DELETE /api/tasks/{task_id}` (`api/web_api.py`, lines 115–125):
returns `remaining_in_group`; `ValueError` (missing task) is mapped to
HTTP 404. -/
def api_delete_task (db : DB) (task_id : Nat) : DB × HttpOutcome Nat :=
  match delete_task db task_id with
  | Except.ok (db', remaining) => (db', HttpOutcome.ok remaining)
  | Except.error _ => (db, HttpOutcome.err 404)

/-- Endpoint `DELETE /api/users/{username}` (`api/web_api.py`, lines
139–145): success body on deletion; `ValueError` (missing user) is mapped to
HTTP 404. -/
def api_delete_user (db : DB) (username : String) : DB × HttpOutcome Unit :=
  match delete_user db username with
  | Except.ok db' => (db', HttpOutcome.ok ())
  | Except.error _ => (db, HttpOutcome.err 404)

/-- Deadline column of the stats repository's overdue query
(`repositories/stats_repository.py`, lines 26–34): the `tg.deadline` of every
active task joined to its `task_groups` row. -/
def active_task_deadlines (db : DB) : List String :=
  (db.tasks.filter fun t => t.status == "active").flatMap fun t =>
    (db.task_groups.filter fun g => g.group_task_id == t.group_task_id).map
      fun g => g.deadline

/-- Value `overdue_tasks` of `GET /api/stats`
(`repositories/stats_repository.py`, lines 26–35): `_count_overdue` over the
active-task deadlines. -/
def stats_overdue_tasks (db : DB) (now : DateTimeM) : Except String Nat :=
  count_overdue (active_task_deadlines db) now

/-- Stated from the spec's words for the refinement claim: the number of
active tasks whose deadline, parsed per the bot's overdue predicate
(`is_overdue`: `DD.MM.YYYY`, strictly before the current date), is overdue. -/
def spec_overdue_count (db : DB) (today : Date) : Nat :=
  ((active_task_deadlines db).filter fun dl =>
    is_overdue ⟨"active", dl⟩ today).length

/-- Invariant of the `tasks` table: `completed_at` is the empty string iff
the row's status is `"active"`. -/
def status_timestamp_inv (db : DB) : Prop :=
  ∀ t ∈ db.tasks, (t.completed_at = "" ↔ t.status = "active")

/-- Concrete database with one active task used to refute C7 and C8. -/
def db7 : DB :=
  ⟨[⟨1, "txt", "01.01.2030", "", "c"⟩], [⟨1, 1, "@a", "@b", "active", "c", ""⟩], [], [], 2⟩

/-- Concrete database whose single active task's group deadline is the
current date, refuting C8. -/
def db8 : DB :=
  ⟨[⟨1, "t", "15.06.2024", "", "01.06.2024 09:00:00"⟩],
   [⟨1, 1, "@a", "@b", "active", "01.06.2024 09:00:00", ""⟩], [], [], 2⟩

/-- Clock value used against `db8`: noon of the deadline day. -/
def now8 : DateTimeM := ⟨⟨2024, 6, 15⟩, 12, 0, 0, 0⟩

theorem is_overdue_completed (task : BotTask) (today : Date)
    (h : task.status = "completed") : is_overdue task today = false := by
  simp [is_overdue, h]

theorem is_overdue_unparsable (task : BotTask) (today : Date)
    (h : deadline_to_date task.deadline = none) : is_overdue task today = false := by
  unfold is_overdue
  rw [h]
  split <;> rfl

theorem insert_tasks_shape (gid : Nat) (a now : String) (execs : List String) (db : DB) :
    (insert_tasks gid a now execs db).1.task_groups = db.task_groups ∧
    (insert_tasks gid a now execs db).1.tasks = db.tasks ++ (insert_tasks gid a now execs db).2 ∧
    (insert_tasks gid a now execs db).2.length = execs.length ∧
    (∀ t ∈ (insert_tasks gid a now execs db).2,
      t.group_task_id = gid ∧ t.status = "active" ∧ t.completed_at = "" ∧
        t.assigned_by = a ∧ t.created_at = now) ∧
    (insert_tasks gid a now execs db).1.users = db.users ∧
    (insert_tasks gid a now execs db).1.user_groups = db.user_groups := by
  induction execs generalizing db with
  | nil => simp [insert_tasks]
  | cons e rest ih =>
    have key : insert_tasks gid a now (e :: rest) db =
        ((insert_tasks gid a now rest
          { db with
            tasks := db.tasks ++ [⟨db.next_task_id, gid, e, a, "active", now, ""⟩]
            next_task_id := db.next_task_id + 1 }).1,
         ⟨db.next_task_id, gid, e, a, "active", now, ""⟩ ::
           (insert_tasks gid a now rest
            { db with
              tasks := db.tasks ++ [⟨db.next_task_id, gid, e, a, "active", now, ""⟩]
              next_task_id := db.next_task_id + 1 }).2) := rfl
    rw [key]
    obtain ⟨h1, h2, h3, h4, h5, h6⟩ := ih { db with
      tasks := db.tasks ++ [⟨db.next_task_id, gid, e, a, "active", now, ""⟩]
      next_task_id := db.next_task_id + 1 }
    refine ⟨h1, ?_, by simp [h3], ?_, h5, h6⟩
    · rw [h2]; simp
    · intro t ht
      rcases List.mem_cons.mp ht with rfl | ht
      · exact ⟨rfl, rfl, rfl, rfl, rfl⟩
      · exact h4 t ht

/-- C5: `is_overdue(task)` is true iff the task's status is not `"completed"`
and its deadline parses as `DD.MM.YYYY` to a date strictly before today; in
particular it is false for every completed task and for every task whose
deadline fails to parse. -/
theorem c5_is_overdue_spec (task : BotTask) (today : Date) :
    (is_overdue task today = true ↔
      task.status ≠ "completed" ∧
        ∃ d, deadline_to_date task.deadline = some d ∧ Date.ltb d today = true) ∧
    (task.status = "completed" → is_overdue task today = false) ∧
    (deadline_to_date task.deadline = none → is_overdue task today = false) := by
  refine ⟨?_, fun h => is_overdue_completed task today h,
    fun h => is_overdue_unparsable task today h⟩
  unfold is_overdue
  by_cases hc : task.status = "completed"
  · simp [hc]
  · simp only [if_neg hc]
    cases hdl : deadline_to_date task.deadline with
    | none => simp [hc]
    | some d =>
      constructor
      · intro hlt
        exact ⟨hc, d, rfl, hlt⟩
      · rintro ⟨-, d', hd', hlt⟩
        injection hd' with h
        subst h
        exact hlt

/-- Witness for C5 at a concrete completed task. -/
theorem c5_is_overdue_spec_witness :
    is_overdue ⟨"completed", "14.06.2024"⟩ ⟨2024, 6, 15⟩ = false :=
  (c5_is_overdue_spec ⟨"completed", "14.06.2024"⟩ ⟨2024, 6, 15⟩).2.1 rfl

/-- C1: `create_task_group` with a non-empty executors list of length N
inserts exactly one new `task_groups` row and exactly N new `tasks` rows, all
sharing the freshly allocated `group_task_id` (max existing + 1, so 1 on an
empty table), each with status `"active"` and empty `completed_at`; the
returned list is exactly the appended task rows. -/
theorem c1_create_task_group_spec (db : DB)
    (text dl gidStr assigner now : String) (execs : List String)
    (hne : execs ≠ []) :
    (create_task_group db text dl gidStr execs assigner now).1.task_groups =
      db.task_groups ++ [⟨get_next_group_task_id db, text, dl, gidStr, now⟩] ∧
    (create_task_group db text dl gidStr execs assigner now).1.tasks =
      db.tasks ++ (create_task_group db text dl gidStr execs assigner now).2 ∧
    (create_task_group db text dl gidStr execs assigner now).2.length = execs.length ∧
    (∀ t ∈ (create_task_group db text dl gidStr execs assigner now).2,
      t.group_task_id = get_next_group_task_id db ∧
        t.status = "active" ∧ t.completed_at = "") ∧
    get_next_group_task_id db = max_group_task_id db + 1 ∧
    (db.task_groups = [] → get_next_group_task_id db = 1) := by
  obtain ⟨h1, h2, h3, h4, h5, h6⟩ :=
    insert_tasks_shape (get_next_group_task_id db) assigner now execs
      { db with
        task_groups := db.task_groups ++
          [⟨get_next_group_task_id db, text, dl, gidStr, now⟩] }
  refine ⟨h1, h2, h3, ?_, rfl, ?_⟩
  · intro t ht
    obtain ⟨hg, hs, hcmp, -, -⟩ := h4 t ht
    exact ⟨hg, hs, hcmp⟩
  · intro hempty
    unfold get_next_group_task_id max_group_task_id
    rw [hempty]
    rfl

/-- Witness for C1 at a two-executor creation on the empty database. -/
theorem c1_create_task_group_spec_witness :
    (create_task_group ⟨[], [], [], [], 1⟩ "Fix" "31.12.2099" "" ["@a", "@b"] "@boss" "n").2.length = 2 :=
  (c1_create_task_group_spec ⟨[], [], [], [], 1⟩ "Fix" "31.12.2099" "" "@boss" "n"
    ["@a", "@b"] (by decide)).2.2.1

/-- C10: `create_task_group` with an empty executors list still inserts the
`task_groups` row and returns no tasks; `POST /api/tasks` then answers
success with a null `group_task_id`. -/
theorem c10_create_empty_executors (db : DB) (text dl gidStr assigner now : String) :
    create_or_add_tasks db (Sum.inl ⟨text, dl, gidStr, [], assigner⟩) now =
      ({ db with
          task_groups := db.task_groups ++
            [⟨get_next_group_task_id db, text, dl, gidStr, now⟩] },
        HttpOutcome.ok ⟨true, none, []⟩) := by
  rfl

/-- C4: adding executors to a missing `group_task_id` raises the not-found
condition (HTTP 404 through `POST /api/tasks`) and inserts nothing; on an
existing group it inserts one `"active"` task row per executor. -/
theorem c4_add_executors_spec (db : DB) (gid : Nat) (execs : List String)
    (assigner now : String) :
    ((∀ g ∈ db.task_groups, g.group_task_id ≠ gid) →
      add_executors_to_group db gid execs assigner now =
        Except.error "Task group does not exist" ∧
      create_or_add_tasks db (Sum.inr ⟨gid, execs, assigner⟩) now =
        (db, HttpOutcome.err 404)) ∧
    ((∃ g ∈ db.task_groups, g.group_task_id = gid) →
      ∃ db' ts,
        add_executors_to_group db gid execs assigner now = Except.ok (db', ts) ∧
        create_or_add_tasks db (Sum.inr ⟨gid, execs, assigner⟩) now =
          (db', HttpOutcome.ok ⟨true, some gid, ts⟩) ∧
        db'.tasks = db.tasks ++ ts ∧
        ts.length = execs.length ∧
        db'.task_groups = db.task_groups ∧
        ∀ t ∈ ts, t.group_task_id = gid ∧ t.status = "active" ∧ t.completed_at = "") := by
  constructor
  · intro habs
    have hany : db.task_groups.any (fun g => g.group_task_id == gid) = false := by
      rw [List.any_eq_false]
      intro g hg
      simpa using habs g hg
    constructor
    · unfold add_executors_to_group
      rw [hany]
      rfl
    · simp [create_or_add_tasks, add_executors_to_group, hany]
  · intro hex
    have hany : db.task_groups.any (fun g => g.group_task_id == gid) = true := by
      rw [List.any_eq_true]
      obtain ⟨g, hg, hgid⟩ := hex
      exact ⟨g, hg, by simpa using hgid⟩
    obtain ⟨h1, h2, h3, h4, h5, h6⟩ := insert_tasks_shape gid assigner now execs db
    refine ⟨(insert_tasks gid assigner now execs db).1,
      (insert_tasks gid assigner now execs db).2, ?_, ?_, h2, h3, h1, ?_⟩
    · unfold add_executors_to_group
      rw [hany]
      rfl
    · simp [create_or_add_tasks, add_executors_to_group, hany]
    · intro t ht
      obtain ⟨hg, hs, hcmp, -, -⟩ := h4 t ht
      exact ⟨hg, hs, hcmp⟩

/-- Witness for C4: both branches at one-row concrete databases. -/
theorem c4_add_executors_spec_witness :
    add_executors_to_group ⟨[], [], [], [], 1⟩ 1 ["@a"] "@b" "n" =
      Except.error "Task group does not exist" :=
  ((c4_add_executors_spec ⟨[], [], [], [], 1⟩ 1 ["@a"] "@b" "n").1 (by simp)).1

theorem insert_tasks_inv (gid : Nat) (a now : String) (execs : List String)
    (db : DB) (hinv : status_timestamp_inv db) :
    status_timestamp_inv (insert_tasks gid a now execs db).1 := by
  obtain ⟨-, h2, -, h4, -, -⟩ := insert_tasks_shape gid a now execs db
  intro t ht
  rw [h2] at ht
  rcases List.mem_append.mp ht with h | h
  · exact hinv t h
  · obtain ⟨-, hs, hcmp, -, -⟩ := h4 t h
    rw [hs, hcmp]
    simp

theorem update_task_status_ok (db : DB) (task_id : Nat) (s now : String)
    (db' : DB) (t : TaskRow)
    (hok : update_task_status db task_id s now = Except.ok (db', t)) :
    db'.tasks = db.tasks.map (fun x =>
      if x.id == task_id then
        { x with status := s, completed_at := if s = "completed" then now else "" }
      else x) ∧
    db'.task_groups = db.task_groups ∧
    db'.users = db.users ∧
    db'.user_groups = db.user_groups ∧
    t.status = s ∧
    t.completed_at = (if s = "completed" then now else "") ∧
    t.id = task_id := by
  simp only [update_task_status] at hok
  split at hok
  · exact absurd hok (by simp)
  · split at hok
    next t0 hget =>
      injection hok with hpair
      simp only [Prod.mk.injEq] at hpair
      obtain ⟨hdb, ht⟩ := hpair
      subst hdb
      subst ht
      refine ⟨rfl, rfl, rfl, rfl, ?_⟩
      unfold get_task_by_id at hget
      cases hf : List.filter (fun x => x.id == task_id)
          ({ db with tasks := db.tasks.map (fun x =>
            if x.id == task_id then
              { x with status := s, completed_at := if s = "completed" then now else "" }
            else x) } : DB).tasks with
      | nil => rw [hf] at hget; exact absurd hget (by simp)
      | cons a l =>
        rw [hf] at hget
        injection hget with ha
        subst ha
        have hamem : a ∈ List.filter (fun x => x.id == task_id)
            (db.tasks.map (fun x =>
              if x.id == task_id then
                { x with status := s, completed_at := if s = "completed" then now else "" }
              else x)) := by
          rw [hf]; exact List.mem_cons_self _ _
        obtain ⟨hmem, hid⟩ := List.mem_filter.mp hamem
        obtain ⟨x, -, hx⟩ := List.mem_map.mp hmem
        by_cases hxid : x.id == task_id
        · rw [if_pos hxid] at hx
          subst hx
          exact ⟨rfl, rfl, by simpa using hid⟩
        · rw [if_neg hxid] at hx
          subst hx
          exact absurd hid hxid
    next => exact absurd hok (by simp)

theorem delete_task_ok (db : DB) (task_id : Nat) (db' : DB) (r : Nat)
    (hok : delete_task db task_id = Except.ok (db', r)) :
    db'.task_groups = db.task_groups ∧
    db'.users = db.users ∧
    db'.user_groups = db.user_groups ∧
    db'.tasks = db.tasks.filter (fun x => !(x.id == task_id)) ∧
    ∃ row, (db.tasks.filter (fun x => x.id == task_id)).head? = some row ∧
      r = (db'.tasks.filter (fun x => x.group_task_id == row.group_task_id)).length := by
  simp only [delete_task] at hok
  split at hok
  next => exact absurd hok (by simp)
  next row hrow =>
    injection hok with hpair
    simp only [Prod.mk.injEq] at hpair
    obtain ⟨hdb, hr⟩ := hpair
    subst hdb
    subst hr
    exact ⟨rfl, rfl, rfl, rfl, row, hrow, rfl⟩

theorem update_group_ok_frame (db : DB) (gid : Nat) (u : TaskGroupUpdate)
    (db' : DB) (g : GroupRow)
    (hok : update_group db gid u = Except.ok (db', g)) :
    db'.tasks = db.tasks ∧ db'.users = db.users ∧ db'.user_groups = db.user_groups := by
  simp only [update_group] at hok
  split at hok
  · split at hok
    · exact absurd hok (by simp)
    · split at hok
      next =>
        injection hok with hpair
        simp only [Prod.mk.injEq] at hpair
        obtain ⟨hdb, -⟩ := hpair
        subst hdb
        exact ⟨rfl, rfl, rfl⟩
      next => exact absurd hok (by simp)
  · split at hok
    next =>
      injection hok with hpair
      simp only [Prod.mk.injEq] at hpair
      obtain ⟨hdb, -⟩ := hpair
      subst hdb
      exact ⟨rfl, rfl, rfl⟩
    next => exact absurd hok (by simp)

theorem update_task_status_inv (db : DB) (hinv : status_timestamp_inv db)
    (task_id : Nat) (s now : String) (db' : DB) (t : TaskRow)
    (hs : s = "active" ∨ s = "completed") (hnow : s = "completed" → now ≠ "")
    (hok : update_task_status db task_id s now = Except.ok (db', t)) :
    status_timestamp_inv db' := by
  obtain ⟨htasks, -, -, -, -, -, -⟩ := update_task_status_ok db task_id s now db' t hok
  intro t' ht'
  rw [htasks] at ht'
  obtain ⟨x, hxmem, hx⟩ := List.mem_map.mp ht'
  by_cases hxid : x.id == task_id
  · rw [if_pos hxid] at hx
    subst hx
    rcases hs with rfl | rfl
    · simp
    · have hne : ("completed" : String) ≠ "active" := by decide
      simp [hnow rfl, hne]
  · rw [if_neg hxid] at hx
    subst hx
    exact hinv x hxmem

/-- C2: with statuses restricted to `"active"`/`"completed"` (what the
validated payloads allow) and a non-empty timestamp, every repository
operation preserves `status_timestamp_inv`: creations and executor additions
insert `"active"` rows with empty `completed_at`, completing a task stamps
`completed_at := now`, reopening resets it to `""`, and deletions and group
updates leave the remaining task rows untouched. -/
theorem c2_inv_preserved (db : DB) (hinv : status_timestamp_inv db) :
    (∀ text dl g execs a now,
      status_timestamp_inv (create_task_group db text dl g execs a now).1) ∧
    (∀ gid execs a now db' ts,
      add_executors_to_group db gid execs a now = Except.ok (db', ts) →
      status_timestamp_inv db') ∧
    (∀ task_id now db' t, now ≠ "" →
      update_task_status db task_id "completed" now = Except.ok (db', t) →
      status_timestamp_inv db' ∧ t.completed_at = now ∧ t.status = "completed") ∧
    (∀ task_id now db' t,
      update_task_status db task_id "active" now = Except.ok (db', t) →
      status_timestamp_inv db' ∧ t.completed_at = "" ∧ t.status = "active") ∧
    (∀ task_id db' r, delete_task db task_id = Except.ok (db', r) →
      status_timestamp_inv db') ∧
    (∀ gid u db' g, update_group db gid u = Except.ok (db', g) →
      status_timestamp_inv db') := by
  refine ⟨?_, ?_, ?_, ?_, ?_, ?_⟩
  · intro text dl g execs a now
    exact insert_tasks_inv _ _ _ _ _ (fun t ht => hinv t ht)
  · intro gid execs a now db' ts hok
    simp only [add_executors_to_group] at hok
    split at hok
    · injection hok with hpair
      have hdb : db' = (insert_tasks gid a now execs db).1 := by rw [hpair]
      rw [hdb]
      exact insert_tasks_inv _ _ _ _ _ hinv
    · exact absurd hok (by simp)
  · intro task_id now db' t hnow hok
    obtain ⟨-, -, -, -, hst, hcmp, -⟩ := update_task_status_ok db task_id _ now db' t hok
    exact ⟨update_task_status_inv db hinv task_id _ now db' t (Or.inr rfl)
      (fun _ => hnow) hok, hcmp, hst⟩
  · intro task_id now db' t hok
    obtain ⟨-, -, -, -, hst, hcmp, -⟩ := update_task_status_ok db task_id _ now db' t hok
    refine ⟨update_task_status_inv db hinv task_id _ now db' t (Or.inl rfl) ?_ hok, hcmp, hst⟩
    intro h
    exact absurd h (by decide)
  · intro task_id db' r hok
    obtain ⟨-, -, -, htasks, -⟩ := delete_task_ok db task_id db' r hok
    intro t ht
    rw [htasks] at ht
    exact hinv t (List.mem_filter.mp ht).1
  · intro gid u db' g hok
    obtain ⟨htasks, -, -⟩ := update_group_ok_frame db gid u db' g hok
    intro t ht
    rw [htasks] at ht
    exact hinv t ht

/-- Witness for C2: the empty database satisfies the invariant and a
creation keeps it. -/
theorem c2_inv_preserved_witness :
    status_timestamp_inv (create_task_group ⟨[], [], [], [], 1⟩ "a" "b" "" ["@a"] "@x" "n").1 :=
  (c2_inv_preserved ⟨[], [], [], [], 1⟩ (fun t ht => absurd ht (by simp))).1 "a" "b" "" ["@a"] "@x" "n"

theorem length_filter_not_add {α : Type} (p : α → Bool) (l : List α) :
    (l.filter p).length + (l.filter fun x => !(p x)).length = l.length := by
  induction l with
  | nil => rfl
  | cons a l ih =>
    by_cases h : p a <;> simp [h, ← ih] <;> omega

/-- C3: for an id carried by exactly one `tasks` row, `delete_task` removes
exactly that row and returns the number of rows still sharing its
`group_task_id`, while `task_groups` is untouched (the group row of an
emptied group persists); a missing id raises the not-found condition, HTTP
404 through `DELETE /api/tasks/{id}`. -/
theorem c3_delete_task_spec (db : DB) (task_id : Nat) :
    (∀ row, db.tasks.filter (fun t => t.id == task_id) = [row] →
      ∃ db' remaining,
        delete_task db task_id = Except.ok (db', remaining) ∧
        api_delete_task db task_id = (db', HttpOutcome.ok remaining) ∧
        db'.tasks = db.tasks.filter (fun t => !(t.id == task_id)) ∧
        db'.tasks.length + 1 = db.tasks.length ∧
        db'.task_groups = db.task_groups ∧
        remaining = (get_tasks_by_group db' row.group_task_id).length) ∧
    (db.tasks.filter (fun t => t.id == task_id) = [] →
      delete_task db task_id = Except.error "Task does not exist" ∧
      api_delete_task db task_id = (db, HttpOutcome.err 404)) := by
  constructor
  · intro row hrow
    have hdel : delete_task db task_id = Except.ok
        ({ db with tasks := db.tasks.filter (fun t => !(t.id == task_id)) },
         ((db.tasks.filter (fun t => !(t.id == task_id))).filter
            (fun t => t.group_task_id == row.group_task_id)).length) := by
      unfold delete_task
      rw [hrow]
      rfl
    refine ⟨_, _, hdel, ?_, rfl, ?_, rfl, rfl⟩
    · unfold api_delete_task
      rw [hdel]
    · have hlen := length_filter_not_add (fun t => t.id == task_id) db.tasks
      rw [hrow] at hlen
      simp only [List.length_cons, List.length_nil] at hlen
      show (db.tasks.filter fun t => !(t.id == task_id)).length + 1 = db.tasks.length
      omega
  · intro hnone
    have hdel : delete_task db task_id = Except.error "Task does not exist" := by
      unfold delete_task
      rw [hnone]
      rfl
    exact ⟨hdel, by unfold api_delete_task; rw [hdel]⟩

/-- Witness for C3: a missing id is a 404 at the endpoint. -/
theorem c3_delete_task_spec_witness :
    api_delete_task ⟨[], [⟨7, 1, "@a", "@b", "active", "c", ""⟩], [], [], 8⟩ 99 =
      (⟨[], [⟨7, 1, "@a", "@b", "active", "c", ""⟩], [], [], 8⟩, HttpOutcome.err 404) :=
  ((c3_delete_task_spec ⟨[], [⟨7, 1, "@a", "@b", "active", "c", ""⟩], [], [], 8⟩ 99).2 (by decide)).2

/-- C9: on a group id carried by exactly one `task_groups` row, `update_group`
overwrites exactly the supplied fields of that row and returns the updated
group; omitted fields, `created_at`, every other group row and every `tasks`
row are unchanged; a missing group id raises the not-found condition. -/
theorem c9_update_group_spec (db : DB) (gid : Nat) :
    (∀ g0, db.task_groups.filter (fun g => g.group_task_id == gid) = [g0] →
      ∀ u : TaskGroupUpdate,
        ∃ db' g',
          update_group db gid u = Except.ok (db', g') ∧
          db'.task_groups = db.task_groups.map (fun g =>
            if g.group_task_id == gid then apply_group_update u g else g) ∧
          db'.tasks = db.tasks ∧
          g' = apply_group_update u g0 ∧
          g'.created_at = g0.created_at ∧
          g'.group_task_id = g0.group_task_id ∧
          (u.task_text = none → g'.task_text = g0.task_text) ∧
          (u.deadline = none → g'.deadline = g0.deadline) ∧
          (u.group_id = none → g'.group_id = g0.group_id) ∧
          (∀ s, u.task_text = some s → g'.task_text = s) ∧
          (∀ s, u.deadline = some s → g'.deadline = s) ∧
          (∀ s, u.group_id = some s → g'.group_id = s)) ∧
    (db.task_groups.filter (fun g => g.group_task_id == gid) = [] →
      ∀ u, update_group db gid u = Except.error "Task group does not exist") := by
  constructor
  · intro g0 hrow u
    have hg0p : (g0.group_task_id == gid) = true := by
      have hmem : g0 ∈ db.task_groups.filter (fun g => g.group_task_id == gid) := by
        rw [hrow]; exact List.mem_cons_self _ _
      exact (List.mem_filter.mp hmem).2
    by_cases hhas : has_update_fields u = true
    · have hpf : ∀ g ∈ db.task_groups,
          ((fun g => g.group_task_id == gid) ∘ (fun g =>
            if g.group_task_id == gid then apply_group_update u g else g)) g
            = (fun g => g.group_task_id == gid) g := by
        intro g hg
        by_cases hp : (g.group_task_id == gid) = true
        · simp [Function.comp, hp, apply_group_update]
        · simp [Function.comp, hp]
      have hsel : (db.task_groups.map (fun g =>
            if g.group_task_id == gid then apply_group_update u g else g)).filter
            (fun g => g.group_task_id == gid) = [apply_group_update u g0] := by
        rw [List.filter_map, List.filter_congr hpf, hrow]
        rw [List.map_cons, List.map_nil, if_pos hg0p]
      have hupd : update_group db gid u = Except.ok
          ({ db with task_groups := db.task_groups.map (fun g =>
              if g.group_task_id == gid then apply_group_update u g else g) },
            apply_group_update u g0) := by
        unfold update_group
        rw [if_pos hhas, hrow]
        simp only [List.isEmpty_cons, Bool.false_eq_true, if_false, hsel, List.head?_cons]
      refine ⟨_, _, hupd, rfl, rfl, rfl, rfl, rfl, ?_, ?_, ?_, ?_, ?_, ?_⟩
      · intro h; simp [apply_group_update, h]
      · intro h; simp [apply_group_update, h]
      · intro h; simp [apply_group_update, h]
      · intro s h; simp [apply_group_update, h]
      · intro s h; simp [apply_group_update, h]
      · intro s h; simp [apply_group_update, h]
    · have hhas' : has_update_fields u = false := by
        cases h : has_update_fields u
        · rfl
        · exact absurd h hhas
      have ht1 : u.task_text = none := by
        cases h : u.task_text
        · rfl
        · simp [has_update_fields, h] at hhas'
      have ht2 : u.deadline = none := by
        cases h : u.deadline
        · rfl
        · simp [has_update_fields, h] at hhas'
      have ht3 : u.group_id = none := by
        cases h : u.group_id
        · rfl
        · simp [has_update_fields, h] at hhas'
      have hid : ∀ g : GroupRow, apply_group_update u g = g := by
        intro g
        cases g
        simp [apply_group_update, ht1, ht2, ht3]
      have hmap : db.task_groups.map (fun g =>
          if g.group_task_id == gid then apply_group_update u g else g) = db.task_groups := by
        simp [hid]
      have hupd : update_group db gid u = Except.ok (db, g0) := by
        unfold update_group
        rw [if_neg hhas, hrow]
        rfl
      refine ⟨db, g0, hupd, hmap.symm, rfl, (hid g0).symm, rfl, rfl,
        fun h => rfl, fun h => rfl, fun h => rfl, ?_, ?_, ?_⟩
      · intro s h
        rw [ht1] at h
        exact Option.noConfusion h
      · intro s h
        rw [ht2] at h
        exact Option.noConfusion h
      · intro s h
        rw [ht3] at h
        exact Option.noConfusion h
  · intro hnone u
    by_cases hhas : has_update_fields u = true
    · unfold update_group
      rw [if_pos hhas, hnone]
      rfl
    · unfold update_group
      rw [if_neg hhas, hnone]
      rfl

/-- Witness for C9: a missing group id is the not-found error. -/
theorem c9_update_group_spec_witness :
    update_group ⟨[], [], [], [], 1⟩ 3 ⟨some "x", none, none⟩ =
      Except.error "Task group does not exist" :=
  (c9_update_group_spec ⟨[], [], [], [], 1⟩ 3).2 (by decide) ⟨some "x", none, none⟩

/-- C6: deleting an existing user removes their row and every group
membership of theirs, leaving tasks and groups alone; a missing username is
HTTP 404 through `DELETE /api/users/{username}`. -/
theorem c6_delete_user_spec (db : DB) (username : String) :
    ((∃ us ∈ db.users, us.username = username) →
      api_delete_user db username =
        ({ db with
            users := db.users.filter (fun us => !(us.username == username))
            user_groups := db.user_groups.filter (fun ug => !(ug.1 == username)) },
          HttpOutcome.ok ()) ∧
      (∀ us ∈ (api_delete_user db username).1.users, us.username ≠ username) ∧
      (∀ ug ∈ (api_delete_user db username).1.user_groups, ug.1 ≠ username) ∧
      (api_delete_user db username).1.tasks = db.tasks ∧
      (api_delete_user db username).1.task_groups = db.task_groups) ∧
    ((∀ us ∈ db.users, us.username ≠ username) →
      delete_user db username = Except.error "User does not exist" ∧
      api_delete_user db username = (db, HttpOutcome.err 404)) := by
  constructor
  · intro hex
    have hany : db.users.any (fun us => us.username == username) = true := by
      rw [List.any_eq_true]
      obtain ⟨us, hmem, h⟩ := hex
      exact ⟨us, hmem, by simpa using h⟩
    have hok : api_delete_user db username =
        ({ db with
            users := db.users.filter (fun us => !(us.username == username))
            user_groups := db.user_groups.filter (fun ug => !(ug.1 == username)) },
          HttpOutcome.ok ()) := by
      unfold api_delete_user delete_user
      rw [hany]
      rfl
    refine ⟨hok, ?_, ?_, by rw [hok], by rw [hok]⟩
    · rw [hok]
      intro us hmem
      simpa using (List.mem_filter.mp hmem).2
    · rw [hok]
      intro ug hmem
      simpa using (List.mem_filter.mp hmem).2
  · intro hnone
    have hany : db.users.any (fun us => us.username == username) = false := by
      rw [List.any_eq_false]
      intro us hmem
      simpa using hnone us hmem
    have herr : delete_user db username = Except.error "User does not exist" := by
      unfold delete_user
      rw [hany]
      rfl
    exact ⟨herr, by unfold api_delete_user; rw [herr]⟩

/-- Witness for C6: deleting the only user cascades their membership. -/
theorem c6_delete_user_spec_witness :
    api_delete_user ⟨[], [], [⟨"@u", none⟩], [("@u", "g1")], 1⟩ "@u" =
      (⟨[], [], [], [], 1⟩, HttpOutcome.ok ()) :=
  (((c6_delete_user_spec ⟨[], [], [⟨"@u", none⟩], [("@u", "g1")], 1⟩ "@u").1
    ⟨⟨"@u", none⟩, by simp, rfl⟩)).1

/-- C7 counterexample: a `PUT /api/tasks/1` body with status
`"in_progress"` fails pydantic validation inside FastAPI's body binding, so
the response is 422, not the claimed 404 (the task row is indeed left
unchanged). -/
theorem c7_counterexample :
    (api_update_task db7 1 ⟨some "in_progress", none, none, none, none⟩ "n").2 =
      HttpOutcome.err 422 ∧
    (HttpOutcome.err 422 : HttpOutcome PutResponse) ≠ HttpOutcome.err 404 ∧
    (api_update_task db7 1 ⟨some "in_progress", none, none, none, none⟩ "n").1 = db7 := by
  refine ⟨rfl, by decide, rfl⟩

/-- C7 amended: a `PUT /api/tasks/{id}` body carrying a status outside
`\x7bactive, completed\x7d` and no `group_operation` field is rejected by
FastAPI's request validation with HTTP 422 (not 404), and the database — in
particular the addressed task row — is unchanged. -/
theorem c7_amended_put_invalid_status (db : DB) (task_id : Nat) (s now : String)
    (tt dl g : Option String) (hs : validate_status s = false) :
    api_update_task db task_id ⟨some s, none, tt, dl, g⟩ now =
      (db, HttpOutcome.err 422) := by
  simp [api_update_task, parse_put_payload, hs]

/-- Witness for the amended C7 at a concrete invalid status. -/
theorem c7_amended_put_invalid_status_witness :
    api_update_task db7 1 ⟨some "wip", none, none, none, none⟩ "n" =
      (db7, HttpOutcome.err 422) :=
  c7_amended_put_invalid_status db7 1 "wip" "n" none none none (by decide)

theorem splitOnChar_ne_nil (sep : Char) (cs : List Char) : splitOnChar sep cs ≠ [] := by
  induction cs with
  | nil => simp [splitOnChar]
  | cons c cs ih =>
    simp only [splitOnChar]
    by_cases h : c = sep
    · simp [h]
    · simp only [if_neg h]
      cases hr : splitOnChar sep cs with
      | nil => simp
      | cons x xs => simp

theorem mem_of_splitOnChar (sep : Char) (cs : List Char) (ch : Char) (h : ch ∈ cs) :
    ch = sep ∨ ∃ part ∈ splitOnChar sep cs, ch ∈ part := by
  induction cs with
  | nil => cases h
  | cons c cs ih =>
    simp only [splitOnChar]
    by_cases hc : c = sep
    · rcases List.mem_cons.mp h with rfl | h'
      · exact Or.inl hc
      · rcases ih h' with h1 | ⟨p, hp, hchp⟩
        · exact Or.inl h1
        · refine Or.inr ⟨p, ?_, hchp⟩
          rw [if_pos hc]
          exact List.mem_cons_of_mem _ hp
    · cases hr : splitOnChar sep cs with
      | nil => exact absurd hr (splitOnChar_ne_nil sep cs)
      | cons x xs =>
        rw [if_neg hc]
        show ch = sep ∨ ∃ part ∈ (c :: x) :: xs, ch ∈ part
        rcases List.mem_cons.mp h with rfl | h'
        · exact Or.inr ⟨ch :: x, List.mem_cons_self _ _, List.mem_cons_self _ _⟩
        · rcases ih h' with h1 | ⟨p, hp, hchp⟩
          · exact Or.inl h1
          · rw [hr] at hp
            rcases List.mem_cons.mp hp with rfl | hp'
            · exact Or.inr ⟨c :: p, List.mem_cons_self _ _, List.mem_cons_of_mem _ hchp⟩
            · exact Or.inr ⟨p, List.mem_cons_of_mem _ hp', hchp⟩

theorem digitsVal_all_digits (cs : List Char) (n : Nat) (h : digitsVal cs = some n) :
    ∀ ch ∈ cs, ch.isDigit := by
  unfold digitsVal at h
  split at h
  next hcond =>
    intro ch hch
    exact List.all_eq_true.mp ((Bool.and_eq_true _ _).mp hcond).2 ch hch
  next => exact absurd h (by simp)

theorem deadline_chars_digits_or_dot (cs : List Char) (d : Date)
    (h : deadline_to_date_chars cs = some d) :
    ∀ ch ∈ cs, ch.isDigit ∨ ch = '.' := by
  unfold deadline_to_date_chars at h
  split at h
  next a b c hsplit =>
    intro ch hch
    rcases mem_of_splitOnChar '.' cs ch hch with hd | ⟨part, hpart, hchp⟩
    · exact Or.inr hd
    · rw [hsplit] at hpart
      split at h
      next na nb nc ha hb hc =>
        rcases List.mem_cons.mp hpart with rfl | hpart'
        · exact Or.inl (digitsVal_all_digits _ _ ha ch hchp)
        · rcases List.mem_cons.mp hpart' with rfl | hpart''
          · exact Or.inl (digitsVal_all_digits _ _ hb ch hchp)
          · rcases List.mem_cons.mp hpart'' with rfl | hpart3
            · exact Or.inl (digitsVal_all_digits _ _ hc ch hchp)
            · cases hpart3
      next => exact absurd h (by simp)
  next => exact absurd h (by simp)

theorem isPySpace_false_of_digit_or_dot (c : Char)
    (h : c.isDigit = true ∨ c = '.') : isPySpace c = false := by
  rcases h with hd | hd
  · have hb : 48 ≤ c.toNat ∧ c.toNat ≤ 57 := by
      simp [Char.isDigit] at hd
      exact hd
    unfold isPySpace
    rw [decide_eq_false_iff_not]
    omega
  · rw [hd]
    decide

theorem ne_dash_of_digit_or_dot (c : Char)
    (h : c.isDigit = true ∨ c = '.') : ¬(c = '-') := by
  intro he
  rcases h with hd | hd
  · have hb : 48 ≤ c.toNat ∧ c.toNat ≤ 57 := by
      simp [Char.isDigit] at hd
      exact hd
    rw [he] at hb
    have h45 : ('-').toNat = 45 := by decide
    rw [h45] at hb
    omega
  · subst hd
    exact absurd he (by decide)

theorem parse_date_of_deadline (dl : String) (d : Date)
    (h : deadline_to_date dl = some d) :
    parse_date dl = some (⟨d, 0, 0, 0, 0⟩, false) := by
  have hch : ∀ ch ∈ dl.data, ch.isDigit ∨ ch = '.' :=
    deadline_chars_digits_or_dot dl.data d h
  have hiso : parse_iso dl.data = none := by
    unfold parse_iso
    split
    next y1 y2 y3 y4 s1 m1 m2 s2 d1 d2 rest heq =>
      have hs1 : s1.isDigit ∨ s1 = '.' := by
        apply hch
        rw [heq]
        simp
      have hne : ¬(s1 = '-') := ne_dash_of_digit_or_dot s1 hs1
      simp [hne]
    next => rfl
  have hdt : parse_datetime_fmt dl.data = none := by
    unfold parse_datetime_fmt
    have hdrop : dl.data.dropWhile (fun c => !(isPySpace c)) = [] := by
      rw [List.dropWhile_eq_nil_iff]
      intro x hx
      simp [isPySpace_false_of_digit_or_dot x (hch x hx)]
    simp [hdrop]
  unfold parse_date
  rw [hiso, hdt]
  unfold deadline_to_date at h
  rw [h]

/-- C8 counterexample: at noon of a deadline day the stats repository counts
the task as overdue (the parsed midnight datetime is before now) while the
bot's `is_overdue` does not (the date is not strictly before today), so the
stats overdue count and the count per the bot's overdue predicate disagree
on this database. -/
theorem c8_counterexample :
    stats_overdue_tasks db8 now8 = Except.ok 1 ∧
    spec_overdue_count db8 now8.date = 0 ∧
    stats_overdue_tasks db8 now8 ≠ Except.ok (spec_overdue_count db8 now8.date) := by
  refine ⟨rfl, rfl, ?_⟩
  intro hcon
  rw [show stats_overdue_tasks db8 now8 = Except.ok 1 from rfl] at hcon
  rw [show spec_overdue_count db8 now8.date = 0 from rfl] at hcon
  injection hcon with hval
  exact absurd hval (by decide)

theorem count_overdue_all_dmy (now : DateTimeM) (l : List String)
    (h : ∀ dl ∈ l, deadline_to_date dl ≠ none ∧ deadline_to_date dl ≠ some now.date) :
    count_overdue l now =
      Except.ok ((l.filter fun dl => is_overdue ⟨"active", dl⟩ now.date).length) := by
  induction l with
  | nil => rfl
  | cons dl rest ih =>
    obtain ⟨h1, h2⟩ := h dl (List.mem_cons_self _ _)
    have ihr := ih (fun x hx => h x (List.mem_cons_of_mem _ hx))
    cases hd : deadline_to_date dl with
    | none => exact absurd hd h1
    | some d =>
      have hne : d ≠ now.date := fun he => h2 (he ▸ hd)
      have hp := parse_date_of_deadline dl d hd
      have hstep : count_overdue (dl :: rest) now =
          match parse_date dl with
          | some (_, true) =>
            Except.error "TypeError: cannot compare offset-naive and offset-aware datetimes"
          | some (p, false) =>
            match count_overdue rest now with
            | Except.ok n => Except.ok ((if DateTimeM.ltb p now then 1 else 0) + n)
            | Except.error e => Except.error e
          | none => count_overdue rest now := rfl
      rw [hstep, hp, ihr]
      have hlt : DateTimeM.ltb ⟨d, 0, 0, 0, 0⟩ now = Date.ltb d now.date := by
        unfold DateTimeM.ltb
        simp [hne]
      have hovr : is_overdue ⟨"active", dl⟩ now.date = Date.ltb d now.date := by
        unfold is_overdue
        have hstat : ¬(BotTask.mk "active" dl).status = "completed" := by
          show ¬("active" : String) = "completed"
          decide
        rw [if_neg hstat, hd]
      simp only [List.filter_cons]
      rw [hovr, hlt]
      cases hcase : Date.ltb d now.date <;> simp [hcase, Nat.add_comm]

/-- C8 amended: the `overdue_tasks` count of `GET /api/stats` equals the
count of active tasks overdue per the bot's `is_overdue` predicate on every
database whose active tasks' deadlines all parse as `DD.MM.YYYY` to a date
different from the current date; in general the two notions disagree (a
deadline equal to the current date, or one in a format only the stats
parser reads, breaks the equality, and an ISO deadline with a UTC offset
makes the stats computation raise instead of counting). -/
theorem c8_amended_overdue_agree (db : DB) (now : DateTimeM)
    (h : ∀ dl ∈ active_task_deadlines db,
      deadline_to_date dl ≠ none ∧ deadline_to_date dl ≠ some now.date) :
    stats_overdue_tasks db now = Except.ok (spec_overdue_count db now.date) := by
  unfold stats_overdue_tasks spec_overdue_count
  exact count_overdue_all_dmy now (active_task_deadlines db) h

/-- Witness for the amended C8: a yesterday-deadline database where the
hypothesis holds concretely and both counts are 1. -/
theorem c8_amended_overdue_agree_witness :
    stats_overdue_tasks
      ⟨[⟨1, "t", "14.06.2024", "", "c"⟩],
       [⟨1, 1, "@a", "@b", "active", "c", ""⟩], [], [], 2⟩ now8 =
    Except.ok (spec_overdue_count
      ⟨[⟨1, "t", "14.06.2024", "", "c"⟩],
       [⟨1, 1, "@a", "@b", "active", "c", ""⟩], [], [], 2⟩ now8.date) :=
  c8_amended_overdue_agree
    ⟨[⟨1, "t", "14.06.2024", "", "c"⟩],
     [⟨1, 1, "@a", "@b", "active", "c", ""⟩], [], [], 2⟩ now8 (by decide)
